import Mathlib

/-!
Verification development for the `thread` CLI (file `src/thread.ts`), a tool
that turns a delimited text document into a chain of sequentially posted
social-media updates with embedded images.

The embedding below mirrors the core pipeline of `thread.ts`:
`makeBlocks` (split + ordinal prefix), `extractImage` (markdown image
extraction), the validators (`lint`, `checkImageNumberPerPost`,
`checkImageSize`), the de-duplicated image list, the 3-phase media upload
(`uploadImages`), and the recursive reply-chain poster (`post`).

External collaborators (filesystem, the authenticated HTTP client, the
`path` library, interactive confirmation) are modelled as oracles / pure
models, as the spec classifies them as capabilities outside the core.
Network-visible behaviour is made explicit as a trace of `NetCall` events.
-/

namespace Thread

/-! ## Models of the JavaScript / Node string and path builtins

The source manipulates JS strings.  We model a JS string as a Lean
`String` and implement the handful of builtins the source uses
(`String.prototype.split`, `trim`, `slice`, `Array.prototype.indexOf`,
`Array.prototype.join`, `path.extname`, `path.join`) as executable
functions on the underlying character list.  JS string lengths and slice
indices are UTF-16 code-unit based; for the basic-plane text handled here
this coincides with counting characters. -/

/-- Tests whether the first list is a prefix of the second (Boolean). -/
def isPrefixL : List Char → List Char → Bool
  | [], _ => true
  | _ :: _, [] => false
  | a :: as, b :: bs => a == b && isPrefixL as bs

/-- Core loop of `String.prototype.split` with a non-empty separator:
scan left to right, cutting at every non-overlapping occurrence of the
separator.  `acc` holds the current block reversed; the `fuel` argument
only bounds the recursion (each step consumes at least one character, so
fuel equal to the input length never runs out). -/
def splitL (sep : List Char) : Nat → List Char → List Char → List (List Char)
  | _, acc, [] => [acc.reverse]
  | 0, acc, rest => [acc.reverse ++ rest]
  | fuel + 1, acc, c :: cs =>
    if isPrefixL sep (c :: cs) then
      acc.reverse :: splitL sep fuel [] ((c :: cs).drop sep.length)
    else
      splitL sep fuel (c :: acc) cs

/-- Models ECMAScript `s.split(sep)` for a non-empty separator `sep`:
an unfiltered split, preserving empty blocks, with no trimming. -/
def jsSplit (sep : String) (s : String) : List String :=
  (splitL sep.toList s.toList.length [] s.toList).map String.mk

/-- Whitespace recognizer for `trim`: the ASCII part of the ECMAScript
WhiteSpace / LineTerminator sets (the only whitespace occurring here). -/
def isWsChar (c : Char) : Bool :=
  c == ' ' || c == '\t' || c == '\n' || c == '\r' || c == '\x0b' || c == '\x0c'

/-- Models ECMAScript `s.trim()`: strip leading and trailing whitespace. -/
def jsTrim (s : String) : String :=
  String.mk (((s.toList.dropWhile isWsChar).reverse.dropWhile isWsChar).reverse)

/-- Models ECMAScript `s.slice(0, n)` (for the ASCII text handled here). -/
def jsSliceTo (n : Nat) (s : String) : String :=
  String.mk (s.toList.take n)

/-- Models ECMAScript `arr.indexOf(x)` on an array of strings: the index
of the first strictly-equal element, `-1` when absent. -/
def jsIndexOf : List String → String → Int
  | [], _ => -1
  | a :: l, p =>
    if a = p then 0
    else
      let r := jsIndexOf l p
      if r < 0 then -1 else r + 1

/-- Models ECMAScript `arr.join(',')` on an array of strings. -/
def joinComma : List String → String
  | [] => ""
  | [s] => s
  | s :: rest => s ++ "," ++ joinComma rest

/-- Helper for `extname`: the suffix of the character list starting at its
last dot (dot included), or `none` when it has no dot. -/
def extAux : List Char → Option (List Char)
  | [] => none
  | c :: cs =>
    match extAux cs with
    | some s => some s
    | none => if c = '.' then some (c :: cs) else none

/-- Models Node `path.extname`: the extension of the last path component,
from its last dot to the end; a dot at position 0 of the component (a
dotfile) does not start an extension. -/
def extname (p : String) : String :=
  let base := ((p.toList.reverse.takeWhile (fun c => c ≠ '/')).reverse)
  match base with
  | [] => ""
  | _ :: rest =>
    match extAux rest with
    | some s => String.mk s
    | none => ""

/-- The `extname(path).slice(1)` idiom of the source: the extension
without its leading dot. -/
def extNoDot (p : String) : String :=
  String.mk ((extname p).toList.drop 1)

/-- Models Node `path.join(dir, p)` for the path shapes occurring here: a
relative `p` with at most a leading `./` and no `..` segments. -/
def jsJoinPath (dir : String) (p : String) : String :=
  dir ++ "/" ++ (if isPrefixL ['.', '/'] p.toList then String.mk (p.toList.drop 2) else p)

/-! ## Data model (the interfaces of `thread.ts`) -/

/-- A block after image extraction: display text plus the ordered resolved
image paths (interface `Content`). -/
structure Content where
  text : String
  images : List String
deriving DecidableEq, Inhabited

/-- A content ready for posting: display text plus the resolved media ids,
`none` where the lookup found no uploaded image (interface `PostContent`,
whose `mediaIds` entries are `string | undefined`). -/
structure PostContent where
  text : String
  mediaIds : List (Option String)
deriving DecidableEq, Inhabited

/-- Loaded image file data (interface `ImageData`). -/
structure ImageData where
  path : String
  total_bytes : Nat
  media_type : String
  media_data : String
deriving DecidableEq, Inhabited

/-- Result of one image's 3-phase upload: the source's
`{ path, mediaId }` pair. -/
structure PathMedia where
  path : String
  mediaId : String
deriving DecidableEq, Inhabited

/-- A `statuses/update` response: its `id_str` plus the rest of the
`Record string any` payload, kept opaque. -/
structure PostResp where
  id_str : String
  payload : String
deriving DecidableEq, Inhabited

/-- A media `FINALIZE` response: the final id and the optional error
indicator the source inspects. -/
structure FinalizeResp where
  media_id_string : String
  error : Option String
deriving DecidableEq, Inhabited

/-- The error taxonomy of the run, one constructor per `throw` site of the
core; each carries the detail the thrown message reports. -/
inductive ThreadError where
  | fileNotFound (path : String)
  | contentTooLong (snippet : String)
  | tooManyGifs (text : String)
  | tooManyImages (text : String)
  | imageTooLarge (path : String)
  | uploadFailed (msg : String)
  | postFailed (msg : String)
deriving DecidableEq, Inhabited

/-- One network request issued by the core, as recorded in the run trace.
The fields are the request payloads of the source; `init`, `append` and
`finalize` additionally carry the path of the image whose pipeline issued
them, as ghost provenance for stating per-path properties. -/
inductive NetCall where
  | init (path : String) (total_bytes : Nat) (media_type : String)
  | append (path : String) (media_id : String) (media_data : String) (segment_index : Nat)
  | finalize (path : String) (media_id : String)
  | createPost (status : String) (media_ids : String) (in_reply_to_status_id : Option String)
deriving DecidableEq, Inhabited

/-- Filesystem and path oracle: the behaviour of `existsSync`,
`readFileSync` (text, byte length, base64 payload) and of
`resolve(dirname(filename))`, all external collaborators of the core. -/
structure Env where
  fileExists : String → Bool
  fileText : String → String
  fileSize : String → Nat
  fileBase64 : String → String
  docDir : String → String

/-- Remote-service oracle: the responses of the authenticated client.
`initResp` gives the `media_id_string` an `INIT` returns for the image
identified by its path; `finalizeResp` gives the `FINALIZE` response for a
media id; `postResp` gives the outcome of the n-th `statuses/update`
call (counting from 0), `Except.error` meaning the call rejected. -/
structure Net where
  initResp : String → String
  finalizeResp : String → FinalizeResp
  postResp : Nat → Except String PostResp

/-! ## Parsing and extraction -/

/-- Embeds `makeBlocks` (thread.ts:233): split the file on `---`, then map
block `i` to `i/(N-1)` ++ `\n\n` ++ the trimmed block text. -/
def makeBlocks (file : String) : List String :=
  let arr := jsSplit "---" file
  arr.enum.map fun p => toString p.1 ++ "/" ++ toString (arr.length - 1) ++ "\n\n" ++ jsTrim p.2

/-- Lazy scan for the regex fragment `.*?]`: consume non-newline
characters up to the first `]`; fail if a newline (which `.` does not
match) comes first.  Returns the consumed characters and the rest after
the `]`. -/
def scanAlt : List Char → Option (List Char × List Char)
  | [] => none
  | c :: cs =>
    if c = ']' then some ([], cs)
    else if c = '\n' then none
    else (scanAlt cs).map fun pr => (c :: pr.1, pr.2)

/-- Lazy scan for the regex fragment `.*?)`: like `scanAlt` with `)`. -/
def scanToParen : List Char → Option (List Char × List Char)
  | [] => none
  | c :: cs =>
    if c = ')' then some ([], cs)
    else if c = '\n' then none
    else (scanToParen cs).map fun pr => (c :: pr.1, pr.2)

/-- Lazy scan for the regex fragment `.+?)`: at least one non-newline
character, then up to the first `)`. -/
def scanPath : List Char → Option (List Char × List Char)
  | [] => none
  | c :: cs =>
    if c = '\n' then none
    else (scanToParen cs).map fun pr => (c :: pr.1, pr.2)

/-- Attempts the image regex `!\[.*?\]\(.+?\)` at the start of the
character list.  On success returns the matched characters, the
parenthesized path group, and the remaining characters.  (Applying the
source's second regex `!\[.*?\]\((.+?)\)` to a match of the first
recovers exactly this path group, so the group is returned directly.) -/
def matchImageAt : List Char → Option (List Char × List Char × List Char)
  | '!' :: '[' :: cs =>
    match scanAlt cs with
    | some (alt, rest1) =>
      match rest1 with
      | '(' :: cs2 =>
        match scanPath cs2 with
        | some (path, rest2) =>
          some ('!' :: '[' :: alt ++ ']' :: '(' :: path ++ [')'], path, rest2)
        | none => none
      | _ => none
    | none => none
  | _ => none

/-- Global regex scan, as performed by `block.match(imagesRegex)` and
`block.replace(imagesRegex, '')` together: collect the path group of each
non-overlapping match scanning left to right, and the text with every
match removed.  `fuel` only bounds the recursion: every step consumes at
least one character (a match is at least six characters long), so fuel
equal to the input length never runs out. -/
def imageScanAux : Nat → List Char → List (List Char) × List Char
  | _, [] => ([], [])
  | 0, cs => ([], cs)
  | fuel + 1, c :: cs =>
    match matchImageAt (c :: cs) with
    | some (_, path, rest) =>
      let pr := imageScanAux fuel rest
      (path :: pr.1, pr.2)
    | none =>
      let pr := imageScanAux fuel cs
      (pr.1, c :: pr.2)

/-- Runs the global image scan on a block. -/
def imageScan (block : String) : List (List Char) × List Char :=
  imageScanAux block.toList.length block.toList

/-- Embeds `extractImage` (thread.ts:250): per block, the markdown image
references in appearance order resolved against the document's directory
(`join(resolve(dirname(filename)), path)`, whose directory part is the
oracle value `docDir`), and the display text with the references
removed. -/
def extractImage (docDir : String) (blocks : List String) : List Content :=
  blocks.map fun block =>
    let pr := imageScan block
    { text := String.mk pr.2
      images := pr.1.map fun path => jsJoinPath docDir (String.mk path) }

/-! ## Validators -/

/-- Sequential `forEach` with a thrown error: runs the check on each
element in order and propagates the first error. -/
def forEachE {α : Type} (f : α → Except ThreadError Unit) : List α → Except ThreadError Unit
  | [] => .ok ()
  | a :: l =>
    match f a with
    | .ok _ => forEachE f l
    | .error e => .error e

/-- The per-block length check of `lint` (thread.ts:242): over 280
characters throws, reporting `block.slice(0, 280)`. -/
def lintCheck (block : String) : Except ThreadError Unit :=
  if block.length > 280 then .error (.contentTooLong (jsSliceTo 280 block)) else .ok ()

/-- Embeds `lint` (thread.ts:242): first over-long block aborts. -/
def lint (blocks : List String) : Except ThreadError Unit :=
  forEachE lintCheck blocks

/-- Gif classification of the source's `switch` on
`extname(path).slice(1)`: an exact, case-sensitive comparison with
`"gif"`. -/
def isGifPath (p : String) : Bool :=
  extNoDot p == "gif"

/-- The per-image body of `checkImageNumberPerPost`'s inner loop: a gif
image allows one image in the content, any other extension allows four. -/
def checkOneImage (c : Content) (p : String) : Except ThreadError Unit :=
  if isGifPath p then
    if c.images.length > 1 then .error (.tooManyGifs c.text) else .ok ()
  else
    if c.images.length > 4 then .error (.tooManyImages c.text) else .ok ()

/-- The media-mix check of one content: iterate its images in order. -/
def checkContent (c : Content) : Except ThreadError Unit :=
  forEachE (checkOneImage c) c.images

/-- Embeds `checkImageNumberPerPost` (thread.ts:267). -/
def checkImageNumberPerPost (contents : List Content) : Except ThreadError Unit :=
  forEachE checkContent contents

/-- Embeds `checkImageSize` (thread.ts:287): over 5,242,880 bytes
throws. -/
def checkImageSize (image : ImageData) : Except ThreadError Unit :=
  if image.total_bytes > 5242880 then .error (.imageTooLarge image.path) else .ok ()

/-- Embeds `getImagesData` (thread.ts:293): read the file once and record
its byte length, MIME type and base64 payload. -/
def getImagesData (env : Env) (path : String) : ImageData :=
  { path := path
    total_bytes := env.fileSize path
    media_type := "image/" ++ extNoDot path
    media_data := env.fileBase64 path }

/-- The `checkFileExists` guard (thread.ts:227) as an `Except`. -/
def checkFileE (env : Env) (filename : String) : Except ThreadError Unit :=
  if env.fileExists filename then .ok () else .error (.fileNotFound filename)

/-! ## De-duplication of image paths -/

/-- The flattened image list of the post action
(`contents.reduce((acc, b) => [...acc, ...b.images], [])`). -/
def allImages (contents : List Content) : List String :=
  contents.foldl (fun acc c => acc ++ c.images) []

/-- The source's de-duplication
`.filter((path, i, arr) => arr.indexOf(path) === i)`: keep an element
exactly when its index is the index of its first occurrence. -/
def jsDedup (l : List String) : List String :=
  (l.enum.filter fun ip => decide (jsIndexOf l ip.2 = (ip.1 : Int))).map Prod.snd

/-- The unique image paths of the run (thread.ts:98). -/
def imagePathsOf (contents : List Content) : List String :=
  jsDedup (allImages contents)

/-! ## Media upload -/

/-- One image's 3-phase upload pipeline (thread.ts:336): `INIT` returning
a media id, `APPEND` of the whole payload as segment 0, `FINALIZE`; an
error field on the finalize response throws
`Failed to upload image: <error>`. -/
def uploadOne (net : Net) (d : ImageData) : List NetCall × Except ThreadError PathMedia :=
  let mid := net.initResp d.path
  let fr := net.finalizeResp mid
  let tr := [NetCall.init d.path d.total_bytes d.media_type,
             NetCall.append d.path mid d.media_data 0,
             NetCall.finalize d.path mid]
  match fr.error with
  | some e => (tr, .error (.uploadFailed ("Failed to upload image: " ++ e)))
  | none => (tr, .ok { path := d.path, mediaId := fr.media_id_string })

/-- Collects the pipeline outcomes as `Promise.all` does: the list of
results when all succeed, otherwise a rejection carrying a failing
pipeline's error (the first in list order, the deterministic rendering of
"first rejection"). -/
def collectResults : List (Except ThreadError PathMedia) → Except ThreadError (List PathMedia)
  | [] => .ok []
  | .error e :: _ => .error e
  | .ok r :: rest => (collectResults rest).map fun l => r :: l

/-- Embeds `uploadImages` (thread.ts:334).  The source launches the
per-image pipelines concurrently under `Promise.all`; the model runs them
all (failure does not cancel siblings, so every pipeline's calls appear in
the trace) and composes their traces in list order — the per-path call
counts the claims speak about are invariant under interleaving. -/
def uploadImages (net : Net) (data : List ImageData) : List NetCall × Except ThreadError (List PathMedia) :=
  let runs := data.map (uploadOne net)
  ((runs.map Prod.fst).flatten, collectResults (runs.map Prod.snd))

/-! ## The reply-chain poster -/

/-- The `mediaIds.join(',')` of the request body: JS `join` renders an
`undefined` entry as the empty string. -/
def joinIds (ids : List (Option String)) : String :=
  joinComma (ids.map fun o => o.getD "")

/-- Embeds the recursive `post` (thread.ts:358).  `post i` first awaits
the whole chain `0..i-1` (whose calls therefore all precede the call for
`i`), then issues the `statuses/update` call for `i`, with
`in_reply_to_status_id` the `id_str` of the previous response when
`i > 0`.  The first component is the trace of issued calls; a rejected
call is still an issued call, and aborts the chain. -/
def post (tw : Nat → Except String PostResp) (contents : List PostContent) : Nat → List NetCall × Except ThreadError PostResp
  | 0 =>
    let c := contents.getD 0 default
    let req := NetCall.createPost c.text (joinIds c.mediaIds) none
    (match tw 0 with
     | .ok r => ([req], .ok r)
     | .error e => ([req], .error (.postFailed e)))
  | i + 1 =>
    match post tw contents i with
    | (tr, .ok prev) =>
      let c := contents.getD (i + 1) default
      let req := NetCall.createPost c.text (joinIds c.mediaIds) (some prev.id_str)
      (match tw (i + 1) with
       | .ok r => (tr ++ [req], .ok r)
       | .error e => (tr ++ [req], .error (.postFailed e)))
    | (tr, .error e) => (tr, .error e)

/-! ## The post command pipeline -/

/-- The contents computed by the post action: blocks of the document, then
image extraction against the document's directory. -/
def contentsOf (env : Env) (filename : String) : List Content :=
  extractImage (env.docDir filename) (makeBlocks (env.fileText filename))

/-- The media-id lookup of the post action:
`pathAndImageId.find(img => path === img.path)` mapped to its
`mediaId`. -/
def resolveId (uploads : List PathMedia) (path : String) : Option String :=
  (uploads.find? fun img => path == img.path).map PathMedia.mediaId

/-- The `postContents` construction of the post action (thread.ts:114). -/
def mkPostContents (contents : List Content) (uploads : List PathMedia) : List PostContent :=
  contents.map fun content =>
    { text := content.text
      mediaIds := content.images.map fun path => resolveId uploads path }

/-- The pre-network phase of the post action (thread.ts:93-104), in source
order: file existence, parsing, extraction, length lint, unique image
paths, their existence, media mix, image loading, size check.  Returns the
data the network phase consumes. -/
def preparePost (env : Env) (filename : String) :
    Except ThreadError (List Content × List String × List ImageData) := do
  checkFileE env filename
  let contents := contentsOf env filename
  lint (contents.map Content.text)
  let imagePaths := imagePathsOf contents
  forEachE (checkFileE env) imagePaths
  checkImageNumberPerPost contents
  let imagesData := imagePaths.map (getImagesData env)
  forEachE checkImageSize imagesData
  pure (contents, imagePaths, imagesData)

/-- The whole post action (thread.ts:88-127) minus its external
collaborators (profile lookup and the interactive confirmation, which the
spec excludes from the core): validate, upload all images, then post the
reply chain starting from index `length - 1`.  Returns the full network
trace and the outcome. -/
def postAction (env : Env) (net : Net) (filename : String) : List NetCall × Except ThreadError PostResp :=
  match preparePost env filename with
  | .error e => ([], .error e)
  | .ok (contents, _, imagesData) =>
    let up := uploadImages net imagesData
    match up.2 with
    | .error e => (up.1, .error e)
    | .ok pathAndImageId =>
      let postContents := mkPostContents contents pathAndImageId
      let pr := post net.postResp postContents (postContents.length - 1)
      (up.1 ++ pr.1, pr.2)

/-! ## Trace observations -/

/-- Recognizes a `statuses/update` request in the trace. -/
def isCreate : NetCall → Bool
  | .createPost _ _ _ => true
  | _ => false

/-- Number of `createPost` calls in a trace. -/
def countCreate (tr : List NetCall) : Nat :=
  tr.countP isCreate

/-- Number of `INIT` calls issued by the pipeline for path `p`. -/
def countInitFor (p : String) (tr : List NetCall) : Nat :=
  tr.countP fun c => match c with | .init q _ _ => q == p | _ => false

/-- Number of `APPEND` calls issued by the pipeline for path `p`. -/
def countAppendFor (p : String) (tr : List NetCall) : Nat :=
  tr.countP fun c => match c with | .append q _ _ _ => q == p | _ => false

/-- Number of `FINALIZE` calls issued by the pipeline for path `p`. -/
def countFinalizeFor (p : String) (tr : List NetCall) : Nat :=
  tr.countP fun c => match c with | .finalize q _ => q == p | _ => false

/-- The image path of content `i` at image position `k`, when both
exist. -/
def pathAt (contents : List Content) (i k : Nat) : Option String :=
  (contents[i]?).bind fun c => c.images[k]?

/-- The media id assigned at content `i`, image position `k`, when both
exist (the inner value is the optional id the lookup produced). -/
def mediaAt (pcs : List PostContent) (i k : Nat) : Option (Option String) :=
  (pcs[i]?).bind fun c => c.mediaIds[k]?

/-- The successful response of the n-th `statuses/update` call under the
oracle `tw` (meaningful when that call succeeds). -/
def respAt (tw : Nat → Except String PostResp) (i : Nat) : PostResp :=
  ((tw i).toOption).getD default

/-- The `statuses/update` request the chain issues for ordinal `i`: the
content's text and joined media ids, with no reply target at `i = 0` and
the id returned for `i - 1` otherwise. -/
def chainCall (tw : Nat → Except String PostResp) (contents : List PostContent) (i : Nat) : NetCall :=
  let c := contents.getD i default
  NetCall.createPost c.text (joinIds c.mediaIds)
    (if i = 0 then none else some (respAt tw (i - 1)).id_str)

end Thread

namespace Thread

/-! ## Concrete example runs -/

/-- Environment of the spec's worked example: the document
`"Hello ![a](./img.png)\n---\nWorld"` whose directory resolves to
`/docs`, with `img.png` present and 1000 bytes long. -/
def exampleEnv : Env :=
  { fileExists := fun _ => true
    fileText := fun _ => "Hello ![a](./img.png)\n---\nWorld"
    fileSize := fun _ => 1000
    fileBase64 := fun _ => "B64"
    docDir := fun _ => "/docs" }

/-- A fully successful remote service for the worked example: `INIT`
returns `mid1`, `FINALIZE` commits to `media9`, and the n-th post call
returns id `id<n>`. -/
def exampleNet : Net :=
  { initResp := fun _ => "mid1"
    finalizeResp := fun _ => { media_id_string := "media9", error := none }
    postResp := fun i => .ok { id_str := "id" ++ toString i, payload := "resp" ++ toString i } }

/-- C8: on the document `"Hello ![a](./img.png)\n---\nWorld"` with
`img.png` of 1000 bytes, the pipeline produces exactly the two Contents
`{text := "0/1\n\nHello ", images := [<dir>/img.png]}` and
`{text := "1/1\n\nWorld", images := []}`, issues exactly one
init/append/finalize pipeline for `img.png`, and two `createPost` calls,
the second referencing the first's id; the run succeeds with the final
post's response. -/
theorem c8_example_run :
    contentsOf exampleEnv "doc.md" =
      [{ text := "0/1\n\nHello ", images := ["/docs/img.png"] },
       { text := "1/1\n\nWorld", images := [] }] ∧
    postAction exampleEnv exampleNet "doc.md" =
      ([NetCall.init "/docs/img.png" 1000 "image/png",
        NetCall.append "/docs/img.png" "mid1" "B64" 0,
        NetCall.finalize "/docs/img.png" "mid1",
        NetCall.createPost "0/1\n\nHello " "media9" none,
        NetCall.createPost "1/1\n\nWorld" "" (some "id0")],
       .ok { id_str := "id1", payload := "resp1" }) :=
  ⟨rfl, rfl⟩

end Thread

namespace Thread

/-! ## Generic facts about the sequential check loop -/

theorem forEachE_ok_iff {α : Type} (f : α → Except ThreadError Unit) (l : List α) :
    forEachE f l = .ok () ↔ ∀ a ∈ l, f a = .ok () := by
  induction l with
  | nil => simp [forEachE]
  | cons a t ih =>
    cases h : f a with
    | ok u =>
      cases u
      simp [forEachE, h, ih]
    | error e =>
      simp only [forEachE, h]
      constructor
      · intro hc
        cases hc
      · intro hall
        have ha := hall a (List.mem_cons_self a t)
        rw [h] at ha
        cases ha

theorem forEachE_error_of_find {α : Type} (f : α → Except ThreadError Unit) (p : α → Bool)
    (err : α → ThreadError) (hf : ∀ a, f a = if p a then .error (err a) else .ok ())
    {l : List α} {a : α} (h : l.find? p = some a) :
    forEachE f l = .error (err a) := by
  induction l with
  | nil => simp [List.find?] at h
  | cons b t ih =>
    by_cases hb : p b = true
    · rw [List.find?_cons_of_pos _ hb] at h
      cases h
      simp [forEachE, hf a, hb]
    · rw [List.find?_cons_of_neg _ hb] at h
      simp only [forEachE, hf b, hb, if_false]
      exact ih h

theorem forEachE_error_of_mem {α : Type} (f : α → Except ThreadError Unit) (e : ThreadError)
    {l : List α} (hall : ∀ a ∈ l, f a = .ok () ∨ f a = .error e)
    (hex : ∃ a ∈ l, f a = .error e) :
    forEachE f l = .error e := by
  induction l with
  | nil =>
    obtain ⟨a, ha, _⟩ := hex
    cases ha
  | cons b t ih =>
    rcases hall b (List.mem_cons_self b t) with hb | hb
    · simp only [forEachE, hb]
      apply ih (fun a ha => hall a (List.mem_cons_of_mem _ ha))
      obtain ⟨a, ha, he⟩ := hex
      rcases List.mem_cons.1 ha with rfl | hat
      · rw [hb] at he
        cases he
      · exact ⟨a, hat, he⟩
    · simp [forEachE, hb]

/-! ## The media-mix check -/

/-- Whether a content holds some gif-classified image, in the sense of the
source's extension switch. -/
def hasGif (c : Content) : Bool :=
  c.images.any isGifPath

theorem hasGif_false_iff (c : Content) :
    hasGif c = false ↔ ∀ p ∈ c.images, isGifPath p = false := by
  rw [hasGif]
  constructor
  · intro hg p hp
    by_contra hc
    exact absurd (List.any_eq_true.2 ⟨p, hp, by simpa using hc⟩) (by simp [hg])
  · intro hall
    by_contra hc
    obtain ⟨p, hp, hgp⟩ := List.any_eq_true.1 (by simpa using hc)
    rw [hall p hp] at hgp
    cases hgp

theorem checkContent_ok_iff_no_gif (c : Content)
    (hall : ∀ p ∈ c.images, isGifPath p = false) :
    checkContent c = .ok () ↔ c.images.length ≤ 4 := by
  constructor
  · intro hok
    by_contra h4
    have hpos : 0 < c.images.length := by omega
    obtain ⟨p, hp⟩ := List.exists_mem_of_length_pos hpos
    have := (forEachE_ok_iff _ _).1 hok p hp
    rw [checkOneImage, if_neg (by simp [hall p hp]), if_pos (by omega)] at this
    cases this
  · intro h4
    rw [checkContent, forEachE_ok_iff]
    intro p hp
    rw [checkOneImage, if_neg (by simp [hall p hp]), if_neg (by omega)]

/-- C4 counterexample: the content with images
`a.png, b.png, c.png, d.png, e.gif` contains a gif-type image and does not
have exactly one image, yet the check rejects it with `TooManyImages`
(the first image's extension hits the at-most-four rule first), not with
`TooManyGifs` as the claim states. -/
theorem c4_gif_five_images_counterexample :
    hasGif { text := "t", images := ["a.png", "b.png", "c.png", "d.png", "e.gif"] } = true ∧
    ({ text := "t", images := ["a.png", "b.png", "c.png", "d.png", "e.gif"] } : Content).images.length ≠ 1 ∧
    checkContent { text := "t", images := ["a.png", "b.png", "c.png", "d.png", "e.gif"] } =
      .error (.tooManyImages "t") :=
  ⟨rfl, by decide, rfl⟩

/-- C4 (amended): each Content is evaluated independently; a Content with
a gif-type image is accepted iff it has exactly one image; a Content
without one is accepted iff it has at most four images; a rejected
gif-free Content reports `TooManyImages`; a rejected gif-containing
Content with at most four images reports `TooManyGifs`; a rejected
Content with more than four images reports `TooManyGifs` when its first
image is gif-typed and `TooManyImages` otherwise. -/
theorem c4_media_mix_amended :
    (∀ contents : List Content,
      checkImageNumberPerPost contents = .ok () ↔ ∀ c ∈ contents, checkContent c = .ok ()) ∧
    (∀ c : Content, hasGif c = true →
      (checkContent c = .ok () ↔ c.images.length = 1)) ∧
    (∀ c : Content, hasGif c = false →
      (checkContent c = .ok () ↔ c.images.length ≤ 4)) ∧
    (∀ c : Content, hasGif c = false → 4 < c.images.length →
      checkContent c = .error (.tooManyImages c.text)) ∧
    (∀ c : Content, hasGif c = true → 2 ≤ c.images.length → c.images.length ≤ 4 →
      checkContent c = .error (.tooManyGifs c.text)) ∧
    (∀ (c : Content) (hd : String) (tl : List String), c.images = hd :: tl →
      4 < c.images.length →
      checkContent c =
        .error (if isGifPath hd then .tooManyGifs c.text else .tooManyImages c.text)) := by
  refine ⟨fun contents => forEachE_ok_iff _ _, fun c hg => ?_, fun c hg => ?_,
    fun c hg h4 => ?_, fun c hg h2 h4 => ?_, fun c hd tl himg h4 => ?_⟩
  · obtain ⟨g, hgm, hgif⟩ := List.any_eq_true.1 hg
    constructor
    · intro hok
      have hone := (forEachE_ok_iff _ _).1 hok g hgm
      rw [checkOneImage, if_pos hgif] at hone
      have hpos : 0 < c.images.length := List.length_pos.2 (List.ne_nil_of_mem hgm)
      by_contra hne
      rw [if_pos (by omega)] at hone
      cases hone
    · intro h1
      rw [checkContent, forEachE_ok_iff]
      intro p _
      rw [checkOneImage]
      split
      · rw [if_neg (by omega)]
      · rw [if_neg (by omega)]
  · exact checkContent_ok_iff_no_gif c ((hasGif_false_iff c).1 hg)
  · have hall : ∀ p ∈ c.images, isGifPath p = false := (hasGif_false_iff c).1 hg
    have hpos : 0 < c.images.length := by omega
    obtain ⟨p, hp⟩ := List.exists_mem_of_length_pos hpos
    apply forEachE_error_of_mem
    · intro a ha
      right
      rw [checkOneImage, if_neg (by simp [hall a ha]), if_pos (by omega)]
    · exact ⟨p, hp, by rw [checkOneImage, if_neg (by simp [hall p hp]), if_pos (by omega)]⟩
  · obtain ⟨g, hgm, hgif⟩ := List.any_eq_true.1 hg
    apply forEachE_error_of_mem
    · intro a ha
      rw [checkOneImage]
      split
      · right
        rw [if_pos (by omega)]
      · left
        rw [if_neg (by omega)]
    · exact ⟨g, hgm, by rw [checkOneImage, if_pos hgif, if_pos (by omega)]⟩
  · rw [checkContent, himg]
    have h1 : c.images.length > 1 := by omega
    by_cases hgi : isGifPath hd = true
    · simp [forEachE, checkOneImage, hgi, h1]
    · simp [forEachE, checkOneImage, hgi, h4]

/-- C4 amended, instantiated: a one-gif content passes, a two-gif content
reports `TooManyGifs`, and a gif-free five-image content reports
`TooManyImages`. -/
theorem c4_media_mix_amended_witness :
    (checkContent { text := "t", images := ["a.gif"] } = .ok () ↔
      ({ text := "t", images := ["a.gif"] } : Content).images.length = 1) ∧
    checkContent { text := "t", images := ["a.gif", "b.gif"] } = .error (.tooManyGifs "t") ∧
    checkContent { text := "u", images := ["a.png", "b.png", "c.png", "d.png", "e.png"] } =
      .error (.tooManyImages "u") :=
  ⟨c4_media_mix_amended.2.1 _ (by decide),
   c4_media_mix_amended.2.2.2.2.1 _ (by decide) (by decide) (by decide),
   c4_media_mix_amended.2.2.2.1 _ (by decide) (by decide)⟩

end Thread

namespace Thread

/-- C10: gif classification is an exact, case-sensitive comparison of the
extension (without the dot) against `"gif"`: paths ending in `.GIF`,
`.Gif` or any other casing are classified as non-gif, and a Content all
of whose images are so classified is subject only to the at-most-four
rule. -/
theorem c10_gif_classification_case_sensitive :
    isGifPath "a.GIF" = false ∧ isGifPath "a.Gif" = false ∧ isGifPath "a.gIf" = false ∧
    isGifPath "a.giF" = false ∧ isGifPath "a.gif" = true ∧
    ∀ c : Content, (∀ p ∈ c.images, isGifPath p = false) →
      (checkContent c = .ok () ↔ c.images.length ≤ 4) :=
  ⟨rfl, rfl, rfl, rfl, rfl, fun c hall => checkContent_ok_iff_no_gif c hall⟩

/-- C10, instantiated: a content with five upper-cased `.GIF` images is
rejected by the four-image rule, one with four of them is accepted. -/
theorem c10_gif_classification_case_sensitive_witness :
    (checkContent { text := "t", images := ["a.GIF", "b.GIF", "c.GIF", "d.GIF", "e.GIF"] } = .ok () ↔
      ({ text := "t", images := ["a.GIF", "b.GIF", "c.GIF", "d.GIF", "e.GIF"] } : Content).images.length ≤ 4) ∧
    (checkContent { text := "t", images := ["a.GIF", "b.Gif", "c.gIf", "d.giF"] } = .ok () ↔
      ({ text := "t", images := ["a.GIF", "b.Gif", "c.gIf", "d.giF"] } : Content).images.length ≤ 4) :=
  ⟨c10_gif_classification_case_sensitive.2.2.2.2.2 _ (by decide),
   c10_gif_classification_case_sensitive.2.2.2.2.2 _ (by decide)⟩

end Thread

namespace Thread

/-! ## The parsing stage -/

/-- C6 counterexample: on the document `" a "`, the raw unfiltered split
is `[" a "]`, but the parsing stage outputs `["0/0\n\na"]` — the block
text is trimmed of surrounding whitespace (and ordinal-prefixed), so the
output is not the sequence of raw block substrings. -/
theorem c6_raw_blocks_counterexample :
    jsSplit "---" " a " = [" a "] ∧
    makeBlocks " a " = ["0/0\n\na"] ∧
    makeBlocks " a " ≠ [" a "] :=
  ⟨rfl, rfl, by decide⟩

/-- C6 (amended): the parsing stage performs an unfiltered split on the
delimiter — empty blocks preserved, one output per raw block, order
preserved — and then maps raw block `i` to its ordinal prefix
`i/(N-1)` ++ `\n\n` followed by the raw block text trimmed of surrounding
whitespace. -/
theorem c6_blocks_amended (file : String) (i : Nat) :
    (makeBlocks file).length = (jsSplit "---" file).length ∧
    (makeBlocks file).get? i =
      ((jsSplit "---" file).get? i).map
        (fun t => toString i ++ "/" ++ toString ((jsSplit "---" file).length - 1) ++ "\n\n" ++ jsTrim t) := by
  constructor
  · rw [makeBlocks]
    simp [List.length_map, List.enum_length]
  · rw [makeBlocks]
    simp only [List.get?_eq_getElem?, List.getElem?_map, List.getElem?_enum]
    cases h : (jsSplit "---" file)[i]? with
    | none => rfl
    | some t => rfl

end Thread

namespace Thread

/-! ## The reply chain -/

theorem post_ok_upto (tw : Nat → Except String PostResp) (contents : List PostContent) :
    ∀ k, (∀ i, i ≤ k → ∃ r, tw i = Except.ok r) →
      post tw contents k = ((List.range (k + 1)).map (chainCall tw contents), .ok (respAt tw k)) := by
  intro k
  induction k with
  | zero =>
    intro hok
    obtain ⟨r, hr⟩ := hok 0 (Nat.le_refl 0)
    simp [post, hr, chainCall, respAt, Except.toOption, show List.range 1 = [0] from rfl]
  | succ k ih =>
    intro hok
    have ihh := ih fun i hi => hok i (Nat.le_succ_of_le hi)
    obtain ⟨r, hr⟩ := hok (k + 1) (Nat.le_refl _)
    simp only [post]
    rw [ihh, hr]
    simp [List.range_succ, chainCall, respAt, hr, Except.toOption]

theorem post_error_step (tw : Nat → Except String PostResp) (contents : List PostContent)
    {k : Nat} {tr : List NetCall} {e : ThreadError}
    (h : post tw contents k = (tr, .error e)) (m : Nat) :
    post tw contents (k + m) = (tr, .error e) := by
  induction m with
  | zero => simpa using h
  | succ m ih =>
    show post tw contents ((k + m) + 1) = (tr, .error e)
    simp only [post]
    rw [ih]

theorem post_fails_at (tw : Nat → Except String PostResp) (contents : List PostContent)
    (i : Nat) (msg : String)
    (hok : ∀ j, j < i → ∃ r, tw j = Except.ok r) (herr : tw i = Except.error msg) :
    post tw contents i = ((List.range (i + 1)).map (chainCall tw contents),
      .error (.postFailed msg)) := by
  cases i with
  | zero => simp [post, herr, chainCall, show List.range 1 = [0] from rfl]
  | succ k =>
    have hupto := post_ok_upto tw contents k fun j hj => hok j (by omega)
    simp only [post]
    rw [hupto, herr]
    simp [List.range_succ, chainCall]

/-- C1: for contents of length N at least 1, when every remote call
succeeds, the posting operation `post (N-1)` issues exactly N `createPost`
calls in ordinal order 0..N-1 — the call for 0 with no reply target and
the call for each later i with the id returned by the call for i-1 as
reply target — and returns the full response of the final call. -/
theorem c1_post_reply_chain (tw : Nat → Except String PostResp) (contents : List PostContent)
    (hne : 1 ≤ contents.length)
    (hok : ∀ i, i < contents.length → ∃ r, tw i = Except.ok r) :
    post tw contents (contents.length - 1) =
      ((List.range contents.length).map (chainCall tw contents),
       .ok (respAt tw (contents.length - 1))) := by
  have h := post_ok_upto tw contents (contents.length - 1) fun i hi => hok i (by omega)
  have hlen : contents.length - 1 + 1 = contents.length := by omega
  rw [h, hlen]

/-- C1, instantiated on a two-content thread with an always-succeeding
remote service. -/
theorem c1_post_reply_chain_witness :
    post (fun i => .ok { id_str := "id" ++ toString i, payload := "p" ++ toString i })
        [{ text := "a", mediaIds := [some "m1"] }, { text := "b", mediaIds := [] }] 1 =
      ((List.range 2).map (chainCall
        (fun i => .ok { id_str := "id" ++ toString i, payload := "p" ++ toString i })
        [{ text := "a", mediaIds := [some "m1"] }, { text := "b", mediaIds := [] }]),
       .ok (respAt (fun i => .ok { id_str := "id" ++ toString i, payload := "p" ++ toString i }) 1)) :=
  c1_post_reply_chain _ _ (by decide) fun i _ => ⟨_, rfl⟩

/-- C7: if the `createPost` call for ordinal i rejects while all earlier
calls succeed, the posting operation aborts with `PostFailed`; its trace
is exactly the calls 0..i — the calls for i+1..N-1 are never issued, and
no other request (in particular no retraction of the already-published
posts 0..i-1) is ever made. -/
theorem c7_post_failure_aborts (tw : Nat → Except String PostResp) (contents : List PostContent)
    (i : Nat) (msg : String) (hi : i < contents.length)
    (hok : ∀ j, j < i → ∃ r, tw j = Except.ok r) (herr : tw i = Except.error msg) :
    post tw contents (contents.length - 1) =
      ((List.range (i + 1)).map (chainCall tw contents), .error (.postFailed msg)) := by
  have hfail := post_fails_at tw contents i msg hok herr
  have hsplit : contents.length - 1 = i + (contents.length - 1 - i) := by omega
  rw [hsplit]
  exact post_error_step tw contents hfail _

/-- C7, instantiated on a three-content thread whose second remote call
rejects: only calls 0 and 1 appear in the trace. -/
theorem c7_post_failure_aborts_witness :
    post (fun i => if i = 1 then .error "boom" else .ok { id_str := "id" ++ toString i, payload := "p" ++ toString i })
        [{ text := "a", mediaIds := [] }, { text := "b", mediaIds := [] }, { text := "c", mediaIds := [] }] 2 =
      ((List.range 2).map (chainCall
        (fun i => if i = 1 then .error "boom" else .ok { id_str := "id" ++ toString i, payload := "p" ++ toString i })
        [{ text := "a", mediaIds := [] }, { text := "b", mediaIds := [] }, { text := "c", mediaIds := [] }]),
       .error (.postFailed "boom")) :=
  c7_post_failure_aborts _ _ 1 "boom" (by decide)
    (by
      intro j hj
      have hj0 : j = 0 := by omega
      subst hj0
      exact ⟨_, rfl⟩)
    rfl

end Thread

namespace Thread

/-! ## De-duplication -/

theorem jsIndexOf_spec {l : List String} {p : String} (h : p ∈ l) :
    ∃ n : Nat, jsIndexOf l p = (n : Int) ∧ l[n]? = some p := by
  induction l with
  | nil => cases h
  | cons a t ih =>
    by_cases ha : a = p
    · exact ⟨0, by simp [jsIndexOf, ha], by simp [ha]⟩
    · have hpt : p ∈ t := by
        rcases List.mem_cons.1 h with rfl | hm
        · exact absurd rfl ha
        · exact hm
      obtain ⟨n, hn, hg⟩ := ih hpt
      refine ⟨n + 1, ?_, by simpa using hg⟩
      simp only [jsIndexOf, ha, if_false]
      rw [hn]
      simp

theorem jsDedup_mem {l : List String} {p : String} : p ∈ jsDedup l ↔ p ∈ l := by
  rw [jsDedup]
  constructor
  · intro hp
    obtain ⟨ip, hip, hsnd⟩ := List.mem_map.1 hp
    obtain ⟨i, x⟩ := ip
    have hme := (List.mem_filter.1 hip).1
    have hx := List.mk_mem_enum_iff_getElem?.1 hme
    cases hsnd
    exact List.getElem?_mem hx
  · intro hp
    obtain ⟨n, hn, hg⟩ := jsIndexOf_spec hp
    refine List.mem_map.2 ⟨(n, p), List.mem_filter.2 ⟨?_, ?_⟩, rfl⟩
    · exact List.mk_mem_enum_iff_getElem?.2 hg
    · simp [hn]

theorem jsDedup_nodup (l : List String) : (jsDedup l).Nodup := by
  rw [jsDedup]
  apply List.Nodup.map_on
  · intro x hx y hy hxy
    have hxe : jsIndexOf l x.2 = (x.1 : Int) := of_decide_eq_true (List.mem_filter.1 hx).2
    have hye : jsIndexOf l y.2 = (y.1 : Int) := of_decide_eq_true (List.mem_filter.1 hy).2
    have hfst : (x.1 : Int) = (y.1 : Int) := by rw [← hxe, ← hye, hxy]
    exact Prod.ext (by exact_mod_cast hfst) hxy
  · exact List.Nodup.filter _ (List.Nodup.of_map Prod.fst (List.nodup_enum_map_fst l))

theorem count_eq_one_of_nodup_of_mem {l : List String} {p : String}
    (hn : l.Nodup) (hm : p ∈ l) : l.count p = 1 := by
  induction l with
  | nil => cases hm
  | cons a t ih =>
    rw [List.count_cons]
    rcases List.mem_cons.1 hm with rfl | hmt
    · have hnotin : p ∉ t := (List.nodup_cons.1 hn).1
      rw [List.count_eq_zero.2 hnotin]
      simp
    · have ha : (a == p) = false := by
        have : a ≠ p := by
          rintro rfl
          exact (List.nodup_cons.1 hn).1 hmt
        simpa using this
      rw [ih (List.nodup_cons.1 hn).2 hmt, ha]
      simp

/-! ## The upload trace -/

theorem uploadOne_fst (net : Net) (d : ImageData) :
    (uploadOne net d).1 = [NetCall.init d.path d.total_bytes d.media_type,
      NetCall.append d.path (net.initResp d.path) d.media_data 0,
      NetCall.finalize d.path (net.initResp d.path)] := by
  rw [uploadOne]
  cases (net.finalizeResp (net.initResp d.path)).error <;> rfl

theorem uploadImages_fst_cons (net : Net) (d : ImageData) (ds : List ImageData) :
    (uploadImages net (d :: ds)).1 = (uploadOne net d).1 ++ (uploadImages net ds).1 := by
  simp [uploadImages]

theorem upload_counts (net : Net) (env : Env) (p : String) (paths : List String) :
    countInitFor p (uploadImages net (paths.map (getImagesData env))).1 = paths.count p ∧
    countAppendFor p (uploadImages net (paths.map (getImagesData env))).1 = paths.count p ∧
    countFinalizeFor p (uploadImages net (paths.map (getImagesData env))).1 = paths.count p := by
  induction paths with
  | nil =>
    refine ⟨?_, ?_, ?_⟩ <;> rfl
  | cons q rest ih =>
    rw [List.map_cons]
    refine ⟨?_, ?_, ?_⟩ <;>
      rw [uploadImages_fst_cons, uploadOne_fst] <;>
      simp only [countInitFor, countAppendFor, countFinalizeFor, List.countP_append,
        List.countP_cons, List.countP_nil, List.count_cons] <;>
      [rw [← countInitFor, ih.1]; rw [← countAppendFor, ih.2.1]; rw [← countFinalizeFor, ih.2.2]] <;>
      simp [getImagesData] <;>
      exact Nat.add_comm _ _

end Thread

namespace Thread

theorem mediaAt_mkPostContents (contents : List Content) (uploads : List PathMedia)
    {a ka : Nat} {p : String} (hpa : pathAt contents a ka = some p) :
    mediaAt (mkPostContents contents uploads) a ka = some (resolveId uploads p) := by
  rw [pathAt] at hpa
  rw [mediaAt, mkPostContents, List.getElem?_map]
  cases hca : contents[a]? with
  | none =>
    rw [hca] at hpa
    simp at hpa
  | some c =>
    rw [hca] at hpa
    have hpa2 : c.images[ka]? = some p := hpa
    have hgoal : (c.images.map fun path => resolveId uploads path)[ka]? =
        some (resolveId uploads p) := by
      rw [List.getElem?_map, hpa2]
      rfl
    exact hgoal

/-- C3: a path referenced by several Contents is uploaded exactly once —
it occurs exactly once in the de-duplicated path list, and the upload
trace holds exactly one INIT, one APPEND and one FINALIZE for it — and
every Content position referencing that path resolves, in the constructed
PostContents, to the same media id (the lookup of the path in the upload
results). -/
theorem c3_dedup_one_upload_same_id (contents : List Content) (uploads : List PathMedia)
    (env : Env) (net : Net) (p : String) (i j ki kj : Nat)
    (hp : p ∈ allImages contents)
    (hpi : pathAt contents i ki = some p) (hpj : pathAt contents j kj = some p) :
    (imagePathsOf contents).count p = 1 ∧
    countInitFor p (uploadImages net ((imagePathsOf contents).map (getImagesData env))).1 = 1 ∧
    countAppendFor p (uploadImages net ((imagePathsOf contents).map (getImagesData env))).1 = 1 ∧
    countFinalizeFor p (uploadImages net ((imagePathsOf contents).map (getImagesData env))).1 = 1 ∧
    mediaAt (mkPostContents contents uploads) i ki = some (resolveId uploads p) ∧
    mediaAt (mkPostContents contents uploads) j kj = some (resolveId uploads p) := by
  have hcount : (imagePathsOf contents).count p = 1 :=
    count_eq_one_of_nodup_of_mem (jsDedup_nodup _) (jsDedup_mem.2 hp)
  obtain ⟨h1, h2, h3⟩ := upload_counts net env p (imagePathsOf contents)
  exact ⟨hcount, by rw [h1, hcount], by rw [h2, hcount], by rw [h3, hcount],
    mediaAt_mkPostContents contents uploads hpi, mediaAt_mkPostContents contents uploads hpj⟩

/-- C3, instantiated: two contents sharing the image `/i.png`. -/
theorem c3_dedup_one_upload_same_id_witness :
    (imagePathsOf [{ text := "a", images := ["/i.png", "/j.png"] },
        { text := "b", images := ["/i.png"] }]).count "/i.png" = 1 ∧
    countInitFor "/i.png" (uploadImages exampleNet
      ((imagePathsOf [{ text := "a", images := ["/i.png", "/j.png"] },
        { text := "b", images := ["/i.png"] }]).map (getImagesData exampleEnv))).1 = 1 ∧
    countAppendFor "/i.png" (uploadImages exampleNet
      ((imagePathsOf [{ text := "a", images := ["/i.png", "/j.png"] },
        { text := "b", images := ["/i.png"] }]).map (getImagesData exampleEnv))).1 = 1 ∧
    countFinalizeFor "/i.png" (uploadImages exampleNet
      ((imagePathsOf [{ text := "a", images := ["/i.png", "/j.png"] },
        { text := "b", images := ["/i.png"] }]).map (getImagesData exampleEnv))).1 = 1 ∧
    mediaAt (mkPostContents [{ text := "a", images := ["/i.png", "/j.png"] },
        { text := "b", images := ["/i.png"] }]
      [{ path := "/i.png", mediaId := "m1" }, { path := "/j.png", mediaId := "m2" }]) 0 0 =
      some (resolveId [{ path := "/i.png", mediaId := "m1" },
        { path := "/j.png", mediaId := "m2" }] "/i.png") ∧
    mediaAt (mkPostContents [{ text := "a", images := ["/i.png", "/j.png"] },
        { text := "b", images := ["/i.png"] }]
      [{ path := "/i.png", mediaId := "m1" }, { path := "/j.png", mediaId := "m2" }]) 1 0 =
      some (resolveId [{ path := "/i.png", mediaId := "m1" },
        { path := "/j.png", mediaId := "m2" }] "/i.png") :=
  c3_dedup_one_upload_same_id _ _ exampleEnv exampleNet "/i.png" 0 1 0 0
    (by decide) (by decide) (by decide)

end Thread

namespace Thread

/-! ## Aborting before the network -/

/-- C5: when some Content's ordinal-prefixed text exceeds 280 characters
(the first such in document order being `b`), the run aborts with
`ContentTooLong` before any network call — the trace is empty — and the
error reports the first 280 characters that would have been postable. -/
theorem c5_content_too_long_aborts (env : Env) (net : Net) (filename : String) (b : String)
    (henv : env.fileExists filename = true)
    (hfind : ((contentsOf env filename).map Content.text).find?
      (fun t => decide (t.length > 280)) = some b) :
    postAction env net filename = ([], .error (.contentTooLong (jsSliceTo 280 b))) := by
  have hck : checkFileE env filename = .ok () := by simp [checkFileE, henv]
  have hlint : lint ((contentsOf env filename).map Content.text) =
      .error (.contentTooLong (jsSliceTo 280 b)) := by
    refine forEachE_error_of_find lintCheck _ (fun t => .contentTooLong (jsSliceTo 280 t)) ?_ hfind
    intro a
    rw [lintCheck]
    by_cases h : a.length > 280 <;> simp [h]
  have hprep : preparePost env filename = .error (.contentTooLong (jsSliceTo 280 b)) := by
    simp only [preparePost, hck, hlint]
    rfl
  simp only [postAction, hprep]

/-- A 281-character single-block document (whose ordinal-prefixed text has
286 characters). -/
def longDoc : String := String.mk (List.replicate 281 'a')

/-- Environment serving the over-long document. -/
def longEnv : Env :=
  { fileExists := fun _ => true
    fileText := fun _ => longDoc
    fileSize := fun _ => 0
    fileBase64 := fun _ => ""
    docDir := fun _ => "/d" }

/-- The over-long ordinal-prefixed text of that document's only block. -/
def longText : String := String.mk ('0' :: '/' :: '0' :: '\n' :: '\n' :: List.replicate 281 'a')

set_option maxRecDepth 100000 in
/-- C5, instantiated on the 281-character document. -/
theorem c5_content_too_long_aborts_witness :
    postAction longEnv exampleNet "f.md" =
      ([], .error (.contentTooLong (jsSliceTo 280 longText))) :=
  c5_content_too_long_aborts longEnv exampleNet "f.md" longText rfl (by decide)

/-- C9: when every earlier validation passes but some referenced image's
byte size exceeds 5,242,880 (the first such, after loading, being `d`),
the run aborts with `ImageTooLarge` after reading the bytes and before any
network call — the trace is empty. -/
theorem c9_image_too_large_aborts (env : Env) (net : Net) (filename : String) (d : ImageData)
    (henv : env.fileExists filename = true)
    (hlint : lint ((contentsOf env filename).map Content.text) = .ok ())
    (hfiles : forEachE (checkFileE env) (imagePathsOf (contentsOf env filename)) = .ok ())
    (hmix : checkImageNumberPerPost (contentsOf env filename) = .ok ())
    (hbig : ((imagePathsOf (contentsOf env filename)).map (getImagesData env)).find?
      (fun x => decide (x.total_bytes > 5242880)) = some d) :
    postAction env net filename = ([], .error (.imageTooLarge d.path)) := by
  have hck : checkFileE env filename = .ok () := by simp [checkFileE, henv]
  have hsize : forEachE checkImageSize
      ((imagePathsOf (contentsOf env filename)).map (getImagesData env)) =
      .error (.imageTooLarge d.path) := by
    refine forEachE_error_of_find checkImageSize _ (fun x => .imageTooLarge x.path) ?_ hbig
    intro a
    rw [checkImageSize]
    by_cases h : a.total_bytes > 5242880 <;> simp [h]
  have hprep : preparePost env filename = .error (.imageTooLarge d.path) := by
    simp only [preparePost, hck, hlint, hfiles, hmix, hsize]
    rfl
  simp only [postAction, hprep]

/-- Environment with a document referencing one 6,000,000-byte image. -/
def bigEnv : Env :=
  { fileExists := fun _ => true
    fileText := fun _ => "![a](./big.png)"
    fileSize := fun _ => 6000000
    fileBase64 := fun _ => "B"
    docDir := fun _ => "/d" }

/-- C9, instantiated on the 6,000,000-byte image. -/
theorem c9_image_too_large_aborts_witness :
    postAction bigEnv exampleNet "f.md" = ([], .error (.imageTooLarge "/d/big.png")) :=
  c9_image_too_large_aborts bigEnv exampleNet "f.md" (getImagesData bigEnv "/d/big.png")
    rfl rfl rfl rfl rfl

end Thread

namespace Thread

/-! ## Upload failure semantics -/

theorem uploadImages_snd (net : Net) (ds : List ImageData) :
    (uploadImages net ds).2 = collectResults ((ds.map (uploadOne net)).map Prod.snd) := by
  simp [uploadImages]

theorem uploadImages_error_of_fail (net : Net) (ds : List ImageData)
    (hfail : ∃ d ∈ ds, ((net.finalizeResp (net.initResp d.path)).error).isSome = true) :
    ∃ e, (uploadImages net ds).2 = .error (.uploadFailed e) := by
  induction ds with
  | nil =>
    obtain ⟨d, hd, _⟩ := hfail
    cases hd
  | cons d0 rest ih =>
    cases hfr : (net.finalizeResp (net.initResp d0.path)).error with
    | some er =>
      refine ⟨"Failed to upload image: " ++ er, ?_⟩
      rw [uploadImages_snd, List.map_cons, List.map_cons]
      have h1 : (uploadOne net d0).2 =
          .error (.uploadFailed ("Failed to upload image: " ++ er)) := by
        simp [uploadOne, hfr]
      rw [h1]
      rfl
    | none =>
      have h1 : (uploadOne net d0).2 =
          .ok ⟨d0.path, (net.finalizeResp (net.initResp d0.path)).media_id_string⟩ := by
        simp [uploadOne, hfr]
      have hrest : ∃ d ∈ rest, ((net.finalizeResp (net.initResp d.path)).error).isSome = true := by
        obtain ⟨d, hd, hds⟩ := hfail
        rcases List.mem_cons.1 hd with rfl | hdr
        · rw [hfr] at hds
          cases hds
        · exact ⟨d, hdr, hds⟩
      obtain ⟨e, he⟩ := ih hrest
      refine ⟨e, ?_⟩
      rw [uploadImages_snd, List.map_cons, List.map_cons, h1, collectResults]
      rw [uploadImages_snd] at he
      rw [he]
      rfl

theorem countCreate_uploadImages (net : Net) (ds : List ImageData) :
    countCreate (uploadImages net ds).1 = 0 := by
  induction ds with
  | nil => rfl
  | cons d rest ih =>
    rw [countCreate] at ih ⊢
    rw [uploadImages_fst_cons, List.countP_append, uploadOne_fst, ih]
    rfl

/-- C2: when some image's 3-phase upload fails — its finalize response
carries an error indicator — the whole operation fails with
`UploadFailed` and the run's trace holds zero `createPost` calls: no
content of the thread is posted. -/
theorem c2_upload_failure_posts_nothing (env : Env) (net : Net) (filename : String)
    (contents : List Content) (paths : List String) (ds : List ImageData)
    (hprep : preparePost env filename = .ok (contents, paths, ds))
    (hfail : ∃ d ∈ ds, ((net.finalizeResp (net.initResp d.path)).error).isSome = true) :
    (∃ e, (postAction env net filename).2 = .error (.uploadFailed e)) ∧
    countCreate (postAction env net filename).1 = 0 := by
  obtain ⟨e, he⟩ := uploadImages_error_of_fail net ds hfail
  have hact : postAction env net filename =
      ((uploadImages net ds).1, .error (.uploadFailed e)) := by
    simp only [postAction, hprep]
    rw [he]
  rw [hact]
  exact ⟨⟨e, rfl⟩, countCreate_uploadImages net ds⟩

/-- Remote service whose finalize always reports an error. -/
def failNet : Net :=
  { initResp := fun _ => "mid1"
    finalizeResp := fun _ => { media_id_string := "media9", error := some "bad media" }
    postResp := fun i => .ok { id_str := "id" ++ toString i, payload := "resp" ++ toString i } }

/-- C2, instantiated on the example document whose only image's finalize
fails. -/
theorem c2_upload_failure_posts_nothing_witness :
    (∃ e, (postAction exampleEnv failNet "doc.md").2 = .error (.uploadFailed e)) ∧
    countCreate (postAction exampleEnv failNet "doc.md").1 = 0 :=
  c2_upload_failure_posts_nothing exampleEnv failNet "doc.md"
    [{ text := "0/1\n\nHello ", images := ["/docs/img.png"] },
     { text := "1/1\n\nWorld", images := [] }]
    ["/docs/img.png"]
    [{ path := "/docs/img.png", total_bytes := 1000, media_type := "image/png",
       media_data := "B64" }]
    rfl (by decide)

end Thread
